import Mathlib

/-!
Verification of the MSC container-tracking system against its design
specification.  The Python sources (msc_eta_scraper.py and main.py) are
shallowly embedded below: pure functions become Lean functions, the external
effects of one per-bill fetch (browser steps and successive API responses)
are supplied as explicit data, and Python values that may be `None` are
rendered as `Option`.
-/

namespace Msc

/-- The sentinel string the program stores for unknown values (Turkish for
"unknown"; the specification calls it the "Unknown" sentinel). -/
def bilinmiyor : String := "Bilinmiyor"

/-! ## Character-level helpers modelling the Python string primitives -/

/-- The characters removed by Python `str.strip()` with no argument
(ASCII whitespace; the Unicode space characters never occur in this data). -/
def isPySpace (c : Char) : Bool :=
  [' ', '\t', '\n', '\r', '\x0b', '\x0c'].contains c

/-- Python `str.strip()`: drop leading and trailing whitespace. -/
def pyStrip (l : List Char) : List Char :=
  ((l.dropWhile isPySpace).reverse.dropWhile isPySpace).reverse

/-- Python `str.strip()` on a `String`. -/
def pyStripS (s : String) : String := String.mk (pyStrip s.data)

/-- Python `str.lower` on one character, restricted to ASCII letters (the
only case-mapped characters that reach a comparison in this program). -/
def pyLowerChar (c : Char) : Char :=
  match c with
  | 'A' => 'a' | 'B' => 'b' | 'C' => 'c' | 'D' => 'd' | 'E' => 'e'
  | 'F' => 'f' | 'G' => 'g' | 'H' => 'h' | 'I' => 'i' | 'J' => 'j'
  | 'K' => 'k' | 'L' => 'l' | 'M' => 'm' | 'N' => 'n' | 'O' => 'o'
  | 'P' => 'p' | 'Q' => 'q' | 'R' => 'r' | 'S' => 's' | 'T' => 't'
  | 'U' => 'u' | 'V' => 'v' | 'W' => 'w' | 'X' => 'x' | 'Y' => 'y'
  | 'Z' => 'z'
  | _ => c

/-- Python `ch.isdigit()` restricted to the ASCII digits (the only digits in
the date strings this program handles). -/
def pyIsDigit (c : Char) : Bool :=
  decide ('0' ≤ c) && decide (c ≤ '9')

/-- Membership in the regex character class `[a-z0-9]` used by
`_norm_desc`. -/
def isLowerAlnum (c : Char) : Bool :=
  (decide ('a' ≤ c) && decide (c ≤ 'z')) || (decide ('0' ≤ c) && decide (c ≤ '9'))

/-- Fragment of the Unicode NFKD decomposition table: accented characters
decompose into a base character followed by a combining mark.  The table
lists the decomposable characters exercised in this development; characters
without a listed decomposition map to themselves. -/
def nfkdChar (c : Char) : List Char :=
  match c with
  | 'É' => ['E', '́']
  | 'é' => ['e', '́']
  | 'Ç' => ['C', '̧']
  | 'ç' => ['c', '̧']
  | 'Ö' => ['O', '̈']
  | 'ö' => ['o', '̈']
  | _ => [c]

/-- Combining marks (Unicode category Mn), modelled by the Combining
Diacritical Marks block, which contains every mark `nfkdChar` produces. -/
def isCombiningMark (c : Char) : Bool :=
  decide (0x300 ≤ c.toNat) && decide (c.toNat ≤ 0x36F)

/-- `normalize` (msc_eta_scraper.py lines 11–16): NFKD-decompose, drop the
combining marks, lowercase.  `if not s: return ""` maps the empty string to
the empty string. -/
def normalize (s : String) : String :=
  if s = "" then ""
  else String.mk
    ((((s.data.map nfkdChar).flatten).filter (fun c => !(isCombiningMark c))).map pyLowerChar)

/-- Models `re.sub(r"[^a-z0-9]+", " ", s)` (one maximal run of characters
outside `[a-z0-9]` becomes a single space).  The Boolean argument records
whether the previous character belonged to such a run. -/
def subNonAlnum : Bool → List Char → List Char
  | _, [] => []
  | inRun, c :: cs =>
    if isLowerAlnum c then c :: subNonAlnum false cs
    else if inRun then subNonAlnum true cs
    else ' ' :: subNonAlnum true cs

/-- `_norm_desc` (msc_eta_scraper.py lines 18–22).  Call sites pass values of
`dict.get`, which may be `None`, hence the optional argument: the body runs
`normalize(s or "")`, collapses runs of non-alphanumeric characters to single
spaces, and strips. -/
def norm_desc (s : Option String) : String :=
  String.mk (pyStrip (subNonAlnum false (normalize (s.getD "")).data))

/-- `POD_ETA_ALIASES` (msc_eta_scraper.py lines 24–28). -/
def POD_ETA_ALIASES : List String :=
  ["pod eta", "pod eta date", "eta pod",
   "pod estimated time of arrival", "pod estimated arrival",
   "pod eta at pod"]

/-- `IMPORT_TO_CONSIGNEE_ALIASES` (msc_eta_scraper.py lines 30–32). -/
def IMPORT_TO_CONSIGNEE_ALIASES : List String :=
  ["import to consignee", "import to consignee date", "import consignee"]

/-! ## Data model (spec §3, shapes taken from the fields the code reads) -/

/-- One tracking event: the code reads `ev.get("Description")` and
`ev.get("Date")`, both of which may be absent. -/
structure TrackingEvent where
  description : Option String
  date : Option String
deriving DecidableEq

/-- One container: the code reads `c.get("Events") or []` and
`c.get("PodEtaDate")`. -/
structure Container where
  events : Option (List TrackingEvent)
  podEtaDate : Option String
deriving DecidableEq

/-- The summary object: the code reads `general.get("FinalPodEtaDate")`. -/
structure GeneralTrackingInfo where
  finalPodEtaDate : Option String
deriving DecidableEq

/-- One bill-of-lading object of a page response: the code reads
`bill.get("ContainersInfo", []) or []` and `bill.get("GeneralTrackingInfo", {})`. -/
structure Bill where
  containersInfo : Option (List Container)
  generalTrackingInfo : Option GeneralTrackingInfo
deriving DecidableEq

/-- One API page response after JSON decoding: the code reads
`data.get("Data", {}).get("BillOfLadings", [])` (absent pieces default to
the empty list) and `data.get("Data", {}).get("NextPageNumber")`. -/
structure PageData where
  billOfLadings : List Bill
  nextPageNumber : Option Int
deriving DecidableEq

/-- Python truthiness of an optional string: `None` and `""` are falsy. -/
def truthy : Option String → Bool
  | none => false
  | some s => !(s == "")

/-! ## ETA / ETD resolver (msc_eta_scraper.py lines 117–155) -/

/-- The nested loops of lines 130–134 and 147–151: dates of the events whose
normalized description lies in the given alias set, in encounter order
(containers in the given order, events within a container in the given
order).  Both loops share this shape and differ only in the alias set. -/
def eventDatesIn (aliases : List String) : List Container → List (Option String)
  | [] => []
  | c :: cs =>
    ((c.events.getD []).filter
      (fun ev => aliases.contains (norm_desc ev.description))).map TrackingEvent.date
    ++ eventDatesIn aliases cs

/-- `export_events` (lines 118–123): dates of the events whose normalized
description equals "export loaded on vessel", in encounter order. -/
def export_events : List Container → List (Option String)
  | [] => []
  | c :: cs =>
    ((c.events.getD []).filter
      (fun ev => norm_desc ev.description == "export loaded on vessel")).map TrackingEvent.date
    ++ export_events cs

/-- `container_etas` (line 143): the containers' own truthy `PodEtaDate`
attributes, in container order. -/
def container_etas : List Container → List (Option String)
  | [] => []
  | c :: cs => (if truthy c.podEtaDate then [c.podEtaDate] else []) ++ container_etas cs

/-- Diagnostic of line 155. -/
def etaMissMsg : String := "ETA için uygun event/alan bulunamadı."

/-- Diagnostic of line 127. -/
def etdMissMsg : String := "ETD için \x27export loaded on vessel\x27 event\x27i bulunamadı."

/-- Lines 117–127: ETD resolution.  Returns the resolved ETD (an event date
may itself be `None`) together with the diagnostics appended. -/
def resolveEtd (cs : List Container) : Option String × List String :=
  match (export_events cs).getLast? with
  | some d => (d, [])
  | none => (some bilinmiyor, [etdMissMsg])

/-- Lines 129–155: the ETA fallback chain.  Returns
`(eta, kaynak, diagnostics)`; `eta` is a Python value that may be `None`
when a matching event has no date. -/
def resolveEta (cs : List Container) (general : GeneralTrackingInfo) :
    Option String × String × List String :=
  match (eventDatesIn POD_ETA_ALIASES cs).head? with
  | some d => (d, "POD ETA", [])
  | none =>
    if truthy general.finalPodEtaDate then
      (general.finalPodEtaDate, "Final POD ETA", [])
    else
      match (container_etas cs).head? with
      | some d => (d, "Container POD ETA", [])
      | none =>
        match (eventDatesIn IMPORT_TO_CONSIGNEE_ALIASES cs).head? with
        | some d => (d, "Import to consignee", [])
        | none => (some bilinmiyor, bilinmiyor, [etaMissMsg])

/-! ## Pagination loop and per-bill orchestration (msc_eta_scraper.py) -/

/-- Diagnostic of line 99. -/
def pg1Msg : String := "BillOfLadings boş veya gelmedi."

/-- Exit data of the pagination loop: the aggregated containers, the final
value of the `bills` variable, the page numbers requested, and the
diagnostics. -/
structure PagOut where
  containers : List Container
  bills : List Bill
  requested : List Int
  logs : List String
deriving DecidableEq

/-- The pagination `while` loop (lines 88–111), with the successive responses
to `requests.post` supplied as a list (`.error e` = the request or JSON
decoding raised `e`).  Returns `none` when the supplied responses run out
while the loop would continue; `.error` propagates an exception together
with the diagnostics accumulated so far.  The inter-page `asyncio.sleep` has
no observable effect on the result and is not modelled. -/
def paginate : List (Except String PageData) → Int → List Container → List Int →
    List String → Option (Except (String × List String) PagOut)
  | [], _, _, _, _ => none
  | r :: rest, page_number, acc, reqs, logs =>
    match r with
    | .error e => some (.error (e, logs))
    | .ok data =>
      match data.billOfLadings with
      | [] =>
        some (.ok ⟨acc, [], reqs ++ [page_number],
          if page_number = 1 then logs ++ [pg1Msg] else logs⟩)
      | bill :: _ =>
        let acc2 := acc ++ bill.containersInfo.getD []
        match data.nextPageNumber with
        | none => some (.ok ⟨acc2, data.billOfLadings, reqs ++ [page_number], logs⟩)
        | some np =>
          if np = 0 ∨ np = page_number then
            some (.ok ⟨acc2, data.billOfLadings, reqs ++ [page_number], logs⟩)
          else
            paginate rest (page_number + 1) acc2 (reqs ++ [page_number]) logs

/-- The dict returned by `get_eta_etd` (and by the fallback in `main.task`):
keys "konşimento", "ETA (Date)", "Kaynak", "ETD", "log".  The ETA and ETD
values can be `None` (a matching event with no date). -/
structure EtaResult where
  konsimento : String
  eta : Option String
  kaynak : String
  etd : Option String
  log : List String
deriving DecidableEq

instance : Inhabited EtaResult := ⟨⟨"", none, "", none, []⟩⟩

/-- The external effects of one per-bill fetch: the page-creation steps before
the `try` block (lines 48–54), the navigate/cookie/token steps inside it
(lines 62–72), and the successive API responses (line 92).  `.error e`
means the step raised an exception whose text is `e`. -/
structure FetchOracle where
  newPage : Except String Unit
  nav : Except String Unit
  resps : List (Except String PageData)

/-- Text of `f"Hata: {e}"` (line 169). -/
def hataMsg (e : String) : String := "Hata: " ++ e

/-- Diagnostic of line 114. -/
def noContainersLog : String := "Hiç konteyner verisi alınamadı (tüm sayfalar tarandı)."

/-- Message of the `ValueError` of line 115. -/
def noContainersErr : String := "ContainersInfo boş."

/-- `get_eta_etd` (msc_eta_scraper.py lines 37–179).  `none` = the supplied
page responses do not determine loop exit; `some (.error e)` = an exception
escaping the coroutine (only possible from the steps before the `try`
block); `some (.ok r)` = the returned dict.  The `DEBUG_EVENTS` dump
(lines 157–166) is disabled in the default environment (the variable is
unset) and would only append one extra diagnostic; it is not modelled. -/
def get_eta_etd (bl : String) (o : FetchOracle) : Option (Except String EtaResult) :=
  match o.newPage with
  | .error e => some (.error e)
  | .ok _ =>
    match o.nav with
    | .error e =>
      some (.ok ⟨bl, some bilinmiyor, bilinmiyor, some bilinmiyor, [hataMsg e]⟩)
    | .ok _ =>
      match paginate o.resps 1 [] [] [] with
      | none => none
      | some (.error (e, logs)) =>
        some (.ok ⟨bl, some bilinmiyor, bilinmiyor, some bilinmiyor, logs ++ [hataMsg e]⟩)
      | some (.ok out) =>
        if out.containers = [] then
          some (.ok ⟨bl, some bilinmiyor, bilinmiyor, some bilinmiyor,
            (out.logs ++ [noContainersLog]) ++ [hataMsg noContainersErr]⟩)
        else
          let general : GeneralTrackingInfo :=
            match out.bills with
            | [] => ⟨none⟩
            | b :: _ => b.generalTrackingInfo.getD ⟨none⟩
          let ed := resolveEtd out.containers
          let ea := resolveEta out.containers general
          some (.ok ⟨bl, ea.1, ea.2.1, ed.1, (out.logs ++ ed.2) ++ ea.2.2⟩)

/-- Whether a bill's orchestration failed: an exception from the steps before
the `try` block, a navigation or fetch exception, or an empty aggregate
container list after the loop. -/
def bill_failed (o : FetchOracle) : Bool :=
  match o.newPage with
  | .error _ => true
  | .ok _ =>
    match o.nav with
    | .error _ => true
    | .ok _ =>
      match paginate o.resps 1 [] [] [] with
      | none => false
      | some (.error _) => true
      | some (.ok out) => out.containers.isEmpty

/-- The `task` closure inside `run_once` (main.py lines 168–179): any
exception raised by `get_eta_etd` is converted into the fallback result. -/
def task (o : FetchOracle) (bl : String) : Option EtaResult :=
  match get_eta_etd bl o with
  | none => none
  | some (.ok r) => some r
  | some (.error e) =>
    some ⟨bl, some bilinmiyor, bilinmiyor, some bilinmiyor, ["üst seviye hata: " ++ e]⟩

/-- `run_once` (main.py lines 161–187): `asyncio.gather` returns the task
results in the order of the input list, which a pointwise map denotes; the
browser lifecycle is an external collaborator.  `none` = some bill's page
responses do not determine its loop exit. -/
def run_once (oracleOf : String → FetchOracle) : List String → Option (List EtaResult)
  | [] => some []
  | bl :: rest =>
    match task (oracleOf bl) bl, run_once oracleOf rest with
    | some r, some rs => some (r :: rs)
    | _, _ => none

/-! ## main.py: canonicalization, previous map, reconciliation -/

/-- `DATA_HEADERS` (main.py lines 20–27). -/
def DATA_HEADERS : List String :=
  ["Konşimento", "ETA (Date)", "Kaynak", "ETD", "Çekim Zamanı (TR)", "Not"]

/-- `canon_date_str` (main.py lines 42–49): empty for the empty string;
strip; empty for the (case-insensitively) sentinel string; else keep only
the digit characters. -/
def canon_date_str (s : String) : String :=
  if s = "" then ""
  else
    let t := pyStrip s.data
    if t.map pyLowerChar = "bilinmiyor".data then ""
    else String.mk (t.filter pyIsDigit)

/-- A value of the previous-ETA map: `{"ETA": ..., "ETD": ...}`. -/
structure PrevEta where
  eta : String
  etd : String
deriving DecidableEq

/-- Insertion into a Python dict rendered as an association list: replace the
value if the key is present, else append. -/
def dictInsert (m : List (String × PrevEta)) (k : String) (v : PrevEta) :
    List (String × PrevEta) :=
  if m.any (fun p => p.1 == k) then
    m.map (fun p => if p.1 == k then (k, v) else p)
  else m ++ [(k, v)]

/-- `read_previous_map` (main.py lines 100–119), applied to the sheet
contents (header row first) as returned by the store. -/
def read_previous_map (rows : List (List String)) : List (String × PrevEta) :=
  match rows with
  | [] => []
  | header :: body =>
    let idx_bl := (header.findIdx? (· == "Konşimento")).getD 0
    let idx_eta := (header.findIdx? (· == "ETA (Date)")).getD 1
    let idx_etd := (header.findIdx? (· == "ETD")).getD 3
    body.foldl (fun prev r =>
      if r.length ≤ idx_bl then prev
      else
        let bl := pyStripS (r.getD idx_bl "")
        if bl = "" then prev
        else
          let eta_old := if idx_eta < r.length then r.getD idx_eta "" else ""
          let etd_old := if idx_etd < r.length then r.getD idx_etd "" else ""
          dictInsert prev bl ⟨eta_old, etd_old⟩) []

/-- The loop body of `read_previous_map` once the header indices have been
resolved against `DATA_HEADERS` (bill number at 0, ETA at 1, ETD at 3). -/
def prevStep (prev : List (String × PrevEta)) (r : List String) :
    List (String × PrevEta) :=
  if r.length ≤ 0 then prev
  else
    let bl := pyStripS (r.getD 0 "")
    if bl = "" then prev
    else
      dictInsert prev bl
        ⟨if 1 < r.length then r.getD 1 "" else "",
         if 3 < r.length then r.getD 3 "" else ""⟩

/-- Prefix of the change notes (main.py lines 210 and 212). -/
def notePrefix : String := "Tarih bilginiz değişti: "

/-- The "no old value" marker of line 212. -/
def yokMarker : String := "(yok)"

/-- `(r.get("ETA (Date)") or "").strip()` (line 199). -/
def newEtaOf (r : EtaResult) : String := pyStripS (r.eta.getD "")

/-- `(prev_map.get(bl, {}).get("ETA", "") or "").strip()` (line 202). -/
def oldEtaOf (prev_map : List (String × PrevEta)) (bl : String) : String :=
  pyStripS (match prev_map.lookup bl with | some p => p.eta | none => "")

/-- The previous-map entry that one result's written row produces when read
back by `read_previous_map`. -/
def entryOf (r : EtaResult) : String × PrevEta :=
  (pyStripS r.konsimento, ⟨newEtaOf r, pyStripS (r.etd.getD "")⟩)

/-- The body of the `for` loop of `to_rows_and_changes` (main.py lines
197–225) for one result: the output row, the changed flag, and the log
rows. -/
def processOne (now : String) (prev_map : List (String × PrevEta)) (r : EtaResult) :
    List String × Bool × List (List String) :=
  let bl := pyStripS r.konsimento
  let eta_new := newEtaOf r
  let etd_new := pyStripS (r.etd.getD "")
  let kaynak := pyStripS r.kaynak
  let eta_old := oldEtaOf prev_map bl
  let eta_new_cmp := canon_date_str eta_new
  let eta_old_cmp := canon_date_str eta_old
  let changed := !(eta_new_cmp == "") && !(eta_new_cmp == eta_old_cmp)
  let note :=
    if changed then
      if eta_old ≠ "" then notePrefix ++ eta_old ++ " → " ++ eta_new
      else notePrefix ++ yokMarker ++ " → " ++ eta_new
    else ""
  ([bl, eta_new, kaynak, etd_new, now, note], changed,
   r.log.map (fun msg => [now, bl, msg]))

/-- The `for` loop of `to_rows_and_changes`, with `i` the current sheet row
number (`enumerate(results, start=2)`). -/
def to_rows_go (now : String) (prev_map : List (String × PrevEta)) :
    Nat → List EtaResult → List (List String) × List Nat × List (List String)
  | _, [] => ([], [], [])
  | i, r :: rs =>
    let p := processOne now prev_map r
    let rest := to_rows_go now prev_map (i + 1) rs
    (p.1 :: rest.1, (if p.2.1 then [i] else []) ++ rest.2.1, p.2.2 ++ rest.2.2)

/-- `to_rows_and_changes` (main.py lines 190–227); the run timestamp
(line 192 reads the clock) is passed in explicitly. -/
def to_rows_and_changes (results : List EtaResult)
    (prev_map : List (String × PrevEta)) (now_tr : String) :
    List (List String) × List Nat × List (List String) :=
  to_rows_go now_tr prev_map 2 results

/-! ## Definitions following the specification's words (for refinement
claims, to be compared with the definitions translated from the source) -/

/-- All events of a container list, flattened in encounter order:
containers in their given order, events within a container in their given
order (spec §4.2). -/
def allEventsSpec : List Container → List TrackingEvent
  | [] => []
  | c :: cs => (c.events.getD []) ++ allEventsSpec cs

/-- Spec §4.2: the first event in encounter order whose normalized
description is a member of the alias set. -/
def firstAliasEvent (aliases : List String) (cs : List Container) :
    Option TrackingEvent :=
  (allEventsSpec cs).find? (fun ev => aliases.contains (norm_desc ev.description))

/-- ETA tier 1 (spec §4.2): first POD-ETA alias event, label "POD ETA". -/
def etaTier1 (cs : List Container) : Option (Option String × String) :=
  (firstAliasEvent POD_ETA_ALIASES cs).map (fun ev => (ev.date, "POD ETA"))

/-- ETA tier 2 (spec §4.2): a non-empty summary final-POD-ETA field, label
"Final POD ETA". -/
def etaTier2 (g : GeneralTrackingInfo) : Option (Option String × String) :=
  if truthy g.finalPodEtaDate then some (g.finalPodEtaDate, "Final POD ETA")
  else none

/-- ETA tier 3 (spec §4.2): the first container with a non-empty own
`podEtaDate` attribute, in container order, label "Container POD ETA". -/
def etaTier3 (cs : List Container) : Option (Option String × String) :=
  (cs.find? (fun c => truthy c.podEtaDate)).map
    (fun c => (c.podEtaDate, "Container POD ETA"))

/-- ETA tier 4 (spec §4.2): first import-to-consignee alias event, label
"Import to consignee". -/
def etaTier4 (cs : List Container) : Option (Option String × String) :=
  (firstAliasEvent IMPORT_TO_CONSIGNEE_ALIASES cs).map
    (fun ev => (ev.date, "Import to consignee"))

/-- Spec §4.2 ETA rule as an explicit ordered fallback chain: the tiers are
evaluated in order and the first matching tier wins; on fall-through ETA and
the label stay Unknown and a diagnostic is recorded. -/
def etaOrderedFallback (cs : List Container) (g : GeneralTrackingInfo) :
    Option String × String × List String :=
  match [etaTier1 cs, etaTier2 g, etaTier3 cs, etaTier4 cs].findSome? id with
  | some p => (p.1, p.2, [])
  | none => (some bilinmiyor, bilinmiyor, [etaMissMsg])

/-- Spec §4.2 ETD rule: the date of the last matching event in encounter
order — equivalently, of the first matching event of the reversed flattened
event sequence. -/
def etdLastExport (cs : List Container) : Option (Option String) :=
  ((allEventsSpec cs).reverse.find?
    (fun ev => norm_desc ev.description == "export loaded on vessel")).map
    TrackingEvent.date

/-- Pagination stop condition at 1-based page index `idx`, as the code
implements it: empty bill data, or next-page indicator absent, zero
(falsy), or equal to the current page number. -/
def stopsAt (idx : Int) (d : PageData) : Bool :=
  d.billOfLadings.isEmpty ||
    (match d.nextPageNumber with
     | none => true
     | some np => np == 0 || np == idx)

/-- The claim's stop condition, verbatim: bill data empty, or next-page
indicator absent or equal to the current page number (no clause for a
present indicator equal to zero). -/
def stopsAtClaim (idx : Int) (d : PageData) : Bool :=
  d.billOfLadings.isEmpty ||
    (match d.nextPageNumber with
     | none => true
     | some np => np == idx)

/-- The containers one page contributes to the aggregate. -/
def pageContribution (d : PageData) : List Container :=
  match d.billOfLadings with
  | [] => []
  | b :: _ => b.containersInfo.getD []

/-- Spec §4.3 pagination contract as a top-down recursion: visit pages in
order starting at index `idx`, stop at the first page satisfying `stopsAt`,
aggregate the contributions of all visited pages in page order, and record
the empty-bill-data diagnostic only when that happens on page 1.  `none`
when no visited page satisfies the stop condition. -/
def paginateSpec (idx : Int) : List PageData → Option PagOut
  | [] => none
  | d :: rest =>
    if stopsAt idx d then
      some ⟨pageContribution d, d.billOfLadings, [idx],
        if d.billOfLadings.isEmpty ∧ idx = 1 then [pg1Msg] else []⟩
    else
      (paginateSpec (idx + 1) rest).map
        (fun out => ⟨pageContribution d ++ out.containers, out.bills,
          idx :: out.requested, out.logs⟩)

/-- The structural invariant claimed for `norm_desc` output (spec §4.1):
only lowercase alphanumerics and spaces, no two adjacent spaces (every
maximal run of non-alphanumerics was collapsed to a single space), and no
leading or trailing space. -/
def collapsedForm (l : List Char) : Prop :=
  (∀ c ∈ l, isLowerAlnum c = true ∨ c = ' ') ∧
  l.Chain' (fun a b => ¬(a = ' ' ∧ b = ' ')) ∧
  l.head? ≠ some ' ' ∧ l.reverse.head? ≠ some ' '

/-! ## Helper lemmas: characters, stripping, filtering -/

theorem pyIsDigit_pyLowerChar (c : Char) : pyIsDigit (pyLowerChar c) = pyIsDigit c := by
  unfold pyLowerChar
  split <;> rfl

theorem isPySpace_not_digit {c : Char} (h : isPySpace c = true) : pyIsDigit c = false := by
  have hm : c ∈ [' ', '\t', '\n', '\r', '\x0b', '\x0c'] :=
    List.mem_of_elem_eq_true h
  fin_cases hm <;> rfl

theorem filter_dropWhile {p q : Char → Bool} (hpq : ∀ c, p c = true → q c = false) :
    ∀ l : List Char, (l.dropWhile p).filter q = l.filter q := by
  intro l
  induction l with
  | nil => rfl
  | cons c cs ih =>
    by_cases hc : p c = true
    · rw [List.dropWhile_cons_of_pos hc, ih, List.filter_cons, hpq c hc]
      simp
    · rw [List.dropWhile_cons_of_neg hc]

theorem filter_map_comm {α β : Type} (f : α → β) (p : β → Bool) :
    ∀ l : List α, (l.map f).filter p = (l.filter (fun a => p (f a))).map f := by
  intro l
  induction l with
  | nil => rfl
  | cons a l ih =>
    simp only [List.map_cons, List.filter_cons]
    by_cases h : p (f a) = true
    · simp only [h, if_true, List.map_cons, ih]
    · simp [eq_false_of_ne_true h, ih]

theorem filter_pyStrip {q : Char → Bool} (hq : ∀ c, isPySpace c = true → q c = false)
    (l : List Char) : (pyStrip l).filter q = l.filter q := by
  unfold pyStrip
  rw [List.filter_reverse, filter_dropWhile hq, List.filter_reverse,
    List.reverse_reverse, filter_dropWhile hq]

theorem dropWhile_head_false {p : Char → Bool} {l : List Char} {c : Char}
    {t : List Char} (h : l.dropWhile p = c :: t) : p c = false := by
  induction l generalizing c t with
  | nil => simp [List.dropWhile] at h
  | cons a l ih =>
    by_cases ha : p a = true
    · rw [List.dropWhile_cons_of_pos ha] at h; exact ih h
    · rw [List.dropWhile_cons_of_neg ha] at h
      cases h; exact eq_false_of_ne_true ha

theorem dropWhile_of_head_false {p : Char → Bool} {c : Char} {t : List Char}
    (h : p c = false) : (c :: t).dropWhile p = c :: t :=
  List.dropWhile_cons_of_neg (by simp [h])

theorem dropWhile_idem (p : Char → Bool) (l : List Char) :
    (l.dropWhile p).dropWhile p = l.dropWhile p := by
  cases hd : l.dropWhile p with
  | nil => rfl
  | cons c t => exact dropWhile_of_head_false (dropWhile_head_false hd)

theorem head?_append_left {α : Type} {a : List α} (b : List α) (h : a ≠ []) :
    (a ++ b).head? = a.head? := by
  cases a with
  | nil => exact absurd rfl h
  | cons x xs => rfl

theorem getLast?_append_right {α : Type} (a : List α) {b : List α} (h : b ≠ []) :
    (a ++ b).getLast? = b.getLast? := by
  rw [← List.head?_reverse, ← List.head?_reverse, List.reverse_append]
  exact head?_append_left _ (by simpa using h)

theorem getLast?_dropWhile {p : Char → Bool} {l : List Char}
    (h : l.dropWhile p ≠ []) : (l.dropWhile p).getLast? = l.getLast? := by
  obtain ⟨t, ht⟩ := List.dropWhile_suffix (l := l) p
  conv_rhs => rw [← ht]
  exact (getLast?_append_right t h).symm

theorem getLast?_reverse' (l : List Char) : l.reverse.getLast? = l.head? := by
  rw [← List.head?_reverse, List.reverse_reverse]

theorem pyStrip_idem (l : List Char) : pyStrip (pyStrip l) = pyStrip l := by
  unfold pyStrip
  cases hbr : ((l.dropWhile isPySpace).reverse.dropWhile isPySpace).reverse with
  | nil => rfl
  | cons x xs =>
    have hb : (l.dropWhile isPySpace).reverse.dropWhile isPySpace ≠ [] := by
      intro h; rw [h] at hbr; cases hbr
    -- the head of the stripped result is the head of `l.dropWhile`,
    -- hence fails `isPySpace`
    have hlx : (l.dropWhile isPySpace).head? = some x := by
      have h1 : ((l.dropWhile isPySpace).reverse.dropWhile isPySpace).reverse.head?
          = some x := by rw [hbr]; rfl
      rw [List.head?_reverse, getLast?_dropWhile hb, getLast?_reverse'] at h1
      exact h1
    have hx : isPySpace x = false := by
      cases hl : l.dropWhile isPySpace with
      | nil => rw [hl] at hlx; cases hlx
      | cons y ys =>
        rw [hl] at hlx
        cases hlx
        exact dropWhile_head_false hl
    rw [dropWhile_of_head_false hx, ← hbr, List.reverse_reverse, dropWhile_idem]

theorem data_mk (l : List Char) : (String.mk l).data = l := rfl

theorem pyStripS_idem (s : String) : pyStripS (pyStripS s) = pyStripS s := by
  unfold pyStripS
  rw [data_mk, pyStrip_idem]

/-! ## Helper lemmas: the ETA/ETD resolver versus the spec formulation -/

theorem head?_filter_map_find? {α β : Type} (p : α → Bool) (f : α → β) :
    ∀ l : List α, ((l.filter p).map f).head? = (l.find? p).map f := by
  intro l
  induction l with
  | nil => rfl
  | cons a l ih =>
    by_cases h : p a = true
    · rw [List.filter_cons_of_pos h, List.find?_cons_of_pos _ h]; rfl
    · rw [List.filter_cons_of_neg (by simp [h]), List.find?_cons_of_neg _ (by simp [h]), ih]

theorem eventDatesIn_eq (al : List String) (cs : List Container) :
    eventDatesIn al cs
      = ((allEventsSpec cs).filter
          (fun ev => al.contains (norm_desc ev.description))).map TrackingEvent.date := by
  induction cs with
  | nil => rfl
  | cons c cs ih =>
    rw [eventDatesIn, allEventsSpec, List.filter_append, List.map_append, ih]

theorem export_events_eq (cs : List Container) :
    export_events cs
      = ((allEventsSpec cs).filter
          (fun ev => norm_desc ev.description == "export loaded on vessel")).map
          TrackingEvent.date := by
  induction cs with
  | nil => rfl
  | cons c cs ih =>
    rw [export_events, allEventsSpec, List.filter_append, List.map_append, ih]

theorem container_etas_eq (cs : List Container) :
    container_etas cs
      = ((cs.filter (fun c => truthy c.podEtaDate)).map Container.podEtaDate) := by
  induction cs with
  | nil => rfl
  | cons c cs ih =>
    rw [container_etas, List.filter_cons, ih]
    by_cases h : truthy c.podEtaDate = true
    · simp [h]
    · simp [eq_false_of_ne_true h]

theorem head?_eventDatesIn (al : List String) (cs : List Container) :
    (eventDatesIn al cs).head?
      = ((allEventsSpec cs).find?
          (fun ev => al.contains (norm_desc ev.description))).map TrackingEvent.date := by
  rw [eventDatesIn_eq, head?_filter_map_find?]

theorem head?_container_etas (cs : List Container) :
    (container_etas cs).head?
      = (cs.find? (fun c => truthy c.podEtaDate)).map Container.podEtaDate := by
  rw [container_etas_eq, head?_filter_map_find?]

theorem getLast?_export_events (cs : List Container) :
    (export_events cs).getLast? = etdLastExport cs := by
  rw [export_events_eq, etdLastExport, ← List.head?_reverse, ← List.map_reverse,
    ← List.filter_reverse, head?_filter_map_find?]

/-- The source resolver equals the spec's ordered fallback chain. -/
theorem resolveEta_eq_orderedFallback (cs : List Container) (g : GeneralTrackingInfo) :
    resolveEta cs g = etaOrderedFallback cs g := by
  unfold resolveEta etaOrderedFallback etaTier1 etaTier2 etaTier3 etaTier4 firstAliasEvent
  rw [head?_eventDatesIn, head?_eventDatesIn, head?_container_etas]
  cases h1 : (allEventsSpec cs).find?
      (fun ev => POD_ETA_ALIASES.contains (norm_desc ev.description)) with
  | some ev => simp [List.findSome?]
  | none =>
    by_cases h2 : truthy g.finalPodEtaDate = true
    · simp [List.findSome?, h2]
    · cases h3 : cs.find? (fun c => truthy c.podEtaDate) with
      | some c => simp [List.findSome?, eq_false_of_ne_true h2]
      | none =>
        cases h4 : (allEventsSpec cs).find?
            (fun ev => IMPORT_TO_CONSIGNEE_ALIASES.contains (norm_desc ev.description)) with
        | some ev => simp [List.findSome?, eq_false_of_ne_true h2]
        | none => simp [List.findSome?, eq_false_of_ne_true h2]

/-- The source ETD computation equals the spec's last-match rule. -/
theorem resolveEtd_eq_lastExport (cs : List Container) :
    resolveEtd cs = match etdLastExport cs with
      | some d => (d, [])
      | none => (some bilinmiyor, [etdMissMsg]) := by
  unfold resolveEtd
  rw [getLast?_export_events]

/-! ## Helper lemmas: pagination -/

/-- The source pagination loop, run on successful responses, equals the
spec's top-down formulation. -/
theorem paginate_eq_spec :
    ∀ (pages : List PageData) (idx : Int) (acc : List Container) (reqs : List Int)
      (logs : List String),
      paginate (pages.map Except.ok) idx acc reqs logs
        = (paginateSpec idx pages).map
            (fun out => Except.ok
              ⟨acc ++ out.containers, out.bills, reqs ++ out.requested,
               logs ++ out.logs⟩) := by
  intro pages
  induction pages with
  | nil => intro idx acc reqs logs; rfl
  | cons d rest ih =>
    intro idx acc reqs logs
    simp only [List.map_cons, paginate]
    cases hb : d.billOfLadings with
    | nil =>
      by_cases hidx : idx = 1 <;>
        simp [paginateSpec, stopsAt, hb, pageContribution, hidx]
    | cons bill bs =>
      cases hnp : d.nextPageNumber with
      | none => simp [paginateSpec, stopsAt, hb, hnp, pageContribution]
      | some np =>
        by_cases h0 : np = 0 ∨ np = idx
        · have hbeq : (np == 0 || np == idx) = true := by
            rcases h0 with h | h <;> simp [h]
          simp [paginateSpec, stopsAt, hb, hnp, pageContribution, hbeq, h0]
        · have hbeq : (np == 0 || np == idx) = false := by
            rcases not_or.mp h0 with ⟨h1, h2⟩
            simp [h1, h2]
          simp only [paginateSpec, stopsAt, hb, hnp, pageContribution, hbeq, h0,
            List.isEmpty_cons, Bool.false_or, Bool.false_eq_true, if_false, ih]
          cases paginateSpec (idx + 1) rest with
          | none => rfl
          | some out => simp [List.append_assoc]

/-- The page numbers the spec recursion requests are consecutive starting at
`idx`. -/
theorem paginateSpec_requested :
    ∀ (pages : List PageData) (idx : Int) (out : PagOut),
      paginateSpec idx pages = some out →
      out.requested = (List.range out.requested.length).map (fun j => idx + Int.ofNat j) := by
  intro pages
  induction pages with
  | nil => intro idx out h; cases h
  | cons d rest ih =>
    intro idx out h
    rw [paginateSpec] at h
    by_cases hs : stopsAt idx d = true
    · rw [if_pos hs] at h
      cases h
      simp [List.range_succ]
    · rw [if_neg hs] at h
      cases hrec : paginateSpec (idx + 1) rest with
      | none => rw [hrec] at h; cases h
      | some out' =>
        rw [hrec] at h
        cases h
        have ihr := ih (idx + 1) out' hrec
        simp only [List.length_cons, List.range_succ_eq_map, List.map_cons, List.map_map]
        congr 1
        · simp
        · rw [ihr]
          simp only [List.length_map, List.length_range]
          apply List.map_congr_left
          intro j hj
          simp only [Function.comp_apply, Nat.succ_eq_add_one, Int.ofNat_eq_natCast]
          push_cast
          ring

/-! ## Helper lemmas: per-bill task and batch runner -/

theorem task_spec {o : FetchOracle} {bl : String} {r : EtaResult}
    (h : task o bl = some r) :
    r.konsimento = bl ∧
      (bill_failed o = true →
        r.eta = some bilinmiyor ∧ r.kaynak = bilinmiyor ∧
        r.etd = some bilinmiyor ∧ r.log ≠ []) := by
  cases hnp : o.newPage with
  | error e =>
    have hge : get_eta_etd bl o = some (Except.error e) := by
      rw [get_eta_etd, hnp]
    have ht : task o bl = some ⟨bl, some bilinmiyor, bilinmiyor, some bilinmiyor,
        ["üst seviye hata: " ++ e]⟩ := by rw [task, hge]
    rw [ht] at h
    cases h
    exact ⟨rfl, fun _ => ⟨rfl, rfl, rfl, by simp⟩⟩
  | ok u =>
    cases hnav : o.nav with
    | error e =>
      have ht : task o bl = some ⟨bl, some bilinmiyor, bilinmiyor, some bilinmiyor,
          [hataMsg e]⟩ := by rw [task, get_eta_etd, hnp, hnav]
      rw [ht] at h
      cases h
      exact ⟨rfl, fun _ => ⟨rfl, rfl, rfl, by simp⟩⟩
    | ok v =>
      cases hpag : paginate o.resps 1 [] [] [] with
      | none =>
        have ht : task o bl = none := by rw [task, get_eta_etd, hnp, hnav, hpag]
        rw [ht] at h
        cases h
      | some exc =>
        cases exc with
        | error pr =>
          obtain ⟨e, logs⟩ := pr
          have ht : task o bl = some ⟨bl, some bilinmiyor, bilinmiyor, some bilinmiyor,
              logs ++ [hataMsg e]⟩ := by rw [task, get_eta_etd, hnp, hnav, hpag]
          rw [ht] at h
          cases h
          exact ⟨rfl, fun _ => ⟨rfl, rfl, rfl, by simp⟩⟩
        | ok out =>
          by_cases hc : out.containers = []
          · have hge : get_eta_etd bl o = some (Except.ok ⟨bl, some bilinmiyor,
                bilinmiyor, some bilinmiyor,
                out.logs ++ [noContainersLog, hataMsg noContainersErr]⟩) := by
              rw [get_eta_etd, hnp, hnav, hpag]
              simp [hc]
            have ht : task o bl = some ⟨bl, some bilinmiyor, bilinmiyor,
                some bilinmiyor,
                out.logs ++ [noContainersLog, hataMsg noContainersErr]⟩ := by
              rw [task, hge]
            rw [ht] at h
            cases h
            exact ⟨rfl, fun _ => ⟨rfl, rfl, rfl, by simp⟩⟩
          · have hbf : bill_failed o = false := by
              rw [bill_failed, hnp, hnav, hpag]
              simp [hc]
            have hge : ∃ q, get_eta_etd bl o = some (Except.ok q) ∧ q.konsimento = bl := by
              rw [get_eta_etd, hnp, hnav, hpag]
              simp [hc]
            obtain ⟨q, hq, hqk⟩ := hge
            have ht : task o bl = some q := by rw [task, hq]
            rw [ht] at h
            cases h
            exact ⟨hqk, fun hfail => absurd hfail (by simp [hbf])⟩

theorem run_once_spec (oracleOf : String → FetchOracle) :
    ∀ bls : List String,
      (∀ bl ∈ bls, (task (oracleOf bl) bl).isSome = true) →
      ∃ rs, run_once oracleOf bls = some rs ∧ rs.length = bls.length ∧
        ∀ i, i < bls.length →
          task (oracleOf (bls.getD i "")) (bls.getD i "") = some (rs.getD i default) := by
  intro bls
  induction bls with
  | nil =>
    intro _
    exact ⟨[], rfl, rfl, fun i hi => absurd hi (by simp)⟩
  | cons bl rest ih =>
    intro h
    have hhead : (task (oracleOf bl) bl).isSome = true := h bl (by simp)
    obtain ⟨r, hr⟩ := Option.isSome_iff_exists.mp hhead
    obtain ⟨rs, hrs, hlen, hidx⟩ := ih (fun b hb => h b (by simp [hb]))
    refine ⟨r :: rs, ?_, by simp [hlen], ?_⟩
    · rw [run_once, hr, hrs]
    · intro i hi
      cases i with
      | zero => simpa using hr
      | succ j =>
        have hj : j < rest.length := by simpa using hi
        simpa using hidx j hj

/-! ## Helper lemmas: reconciliation -/

theorem to_rows_go_rows (now : String) (prev : List (String × PrevEta)) :
    ∀ (i : Nat) (rs : List EtaResult),
      (to_rows_go now prev i rs).1 = rs.map (fun r => (processOne now prev r).1) := by
  intro i rs
  induction rs generalizing i with
  | nil => rfl
  | cons r rs ih => simp [to_rows_go, ih]

theorem to_rows_go_mem (now : String) (prev : List (String × PrevEta)) :
    ∀ (rs : List EtaResult) (i n : Nat),
      n ∈ (to_rows_go now prev i rs).2.1 ↔
        ∃ j, j < rs.length ∧ n = i + j ∧
          (processOne now prev (rs.getD j default)).2.1 = true := by
  intro rs
  induction rs with
  | nil =>
    intro i n
    simp [to_rows_go]
  | cons r rs ih =>
    intro i n
    rw [to_rows_go]
    constructor
    · intro hn
      rcases List.mem_append.mp hn with h | h
      · have hf : (processOne now prev r).2.1 = true ∧ n = i := by
          by_cases hb : (processOne now prev r).2.1 = true
          · rw [if_pos hb] at h
            exact ⟨hb, by simpa using h⟩
          · rw [if_neg hb] at h
            cases h
        exact ⟨0, by simp, by omega, by simpa using hf.1⟩
      · obtain ⟨j, hj, hnj, hflag⟩ := (ih (i + 1) n).mp h
        exact ⟨j + 1, by simpa using Nat.succ_lt_succ hj, by omega, by simpa using hflag⟩
    · rintro ⟨j, hj, hnj, hflag⟩
      cases j with
      | zero =>
        apply List.mem_append.mpr
        left
        simp only [List.getD_cons_zero] at hflag
        rw [if_pos hflag]
        simp [hnj]
      | succ j =>
        rw [List.length_cons] at hj
        apply List.mem_append.mpr
        right
        apply (ih (i + 1) n).mpr
        exact ⟨j, by omega, by omega, by simpa using hflag⟩

theorem to_rows_go_changed_nil (now : String) (prev : List (String × PrevEta)) :
    ∀ (i : Nat) (rs : List EtaResult),
      (to_rows_go now prev i rs).2.1 = [] ↔
        ∀ r ∈ rs, (processOne now prev r).2.1 = false := by
  intro i rs
  induction rs generalizing i with
  | nil => simp [to_rows_go]
  | cons r rs ih =>
    rw [to_rows_go]
    by_cases hb : (processOne now prev r).2.1 = true
    · simp [hb]
    · simp only [if_neg hb, List.nil_append]
      rw [ih (i + 1)]
      constructor
      · intro h x hx
        rcases List.mem_cons.mp hx with hx | hx
        · subst hx; exact eq_false_of_ne_true hb
        · exact h x hx
      · intro h x hx
        exact h x (by simp [hx])

theorem dictInsert_of_not_mem {m : List (String × PrevEta)} {k : String} (v : PrevEta)
    (h : ∀ p ∈ m, p.1 ≠ k) : dictInsert m k v = m ++ [(k, v)] := by
  have hany : m.any (fun p => p.1 == k) = false := by
    rw [List.any_eq_false]
    intro p hp
    simp [h p hp]
  rw [dictInsert, hany]
  simp

theorem lookup_map_entry :
    ∀ (results : List EtaResult), ((results.map (fun r => (entryOf r).1)).Nodup) →
      ∀ r ∈ results, (results.map entryOf).lookup (entryOf r).1 = some (entryOf r).2 := by
  intro results
  induction results with
  | nil => intro _ r hr; cases hr
  | cons x xs ih =>
    intro hnd r hr
    rcases List.mem_cons.mp hr with hr | hr
    · subst hr
      simp [List.lookup, entryOf]
    · have hxk : (entryOf x).1 ∉ xs.map (fun r => (entryOf r).1) :=
        (List.nodup_cons.mp (by simpa using hnd)).1
      have hne : (entryOf r).1 ≠ (entryOf x).1 := by
        intro he
        exact hxk (he ▸ List.mem_map_of_mem (fun r => (entryOf r).1) hr)
      have hbeq : ((entryOf r).1 == (entryOf x).1) = false := by
        simpa using hne
      rw [List.map_cons, List.lookup, hbeq]
      exact ih (List.nodup_cons.mp (by simpa using hnd)).2 r hr

theorem read_previous_map_headers (body : List (List String)) :
    read_previous_map (DATA_HEADERS :: body) = body.foldl prevStep [] := rfl

theorem prevStep_row (now : String) (prev m : List (String × PrevEta))
    (r : EtaResult) (h : pyStripS r.konsimento ≠ "") :
    prevStep m (processOne now prev r).1 = dictInsert m (entryOf r).1 (entryOf r).2 := by
  have hrow : (processOne now prev r).1
      = [pyStripS r.konsimento, newEtaOf r, pyStripS r.kaynak,
         pyStripS (r.etd.getD ""), now,
         (processOne now prev r).1.getD 5 ""] := rfl
  rw [hrow, prevStep]
  simp only [List.length_cons, List.length_nil]
  rw [if_neg (by omega)]
  simp only [List.getD_cons_zero, List.getD_cons_succ]
  rw [pyStripS_idem, if_neg h]
  rw [if_pos (by omega), if_pos (by omega)]
  rfl

theorem foldl_prevStep_entries :
    ∀ (results : List EtaResult) (m0 : List (String × PrevEta)) (now : String)
      (prev : List (String × PrevEta)),
      (∀ r ∈ results, pyStripS r.konsimento ≠ "") →
      ((results.map (fun r => (entryOf r).1)).Nodup) →
      (∀ r ∈ results, ∀ p ∈ m0, p.1 ≠ (entryOf r).1) →
      (results.map (fun r => (processOne now prev r).1)).foldl prevStep m0
        = m0 ++ results.map entryOf := by
  intro results
  induction results with
  | nil => intro m0 now prev _ _ _; simp
  | cons x xs ih =>
    intro m0 now prev h1 hnd hdis
    rw [List.map_cons, List.foldl_cons,
      prevStep_row now prev m0 x (h1 x (by simp)),
      dictInsert_of_not_mem _ (fun p hp => hdis x (by simp) p hp)]
    rw [ih (m0 ++ [entryOf x]) now prev (fun r hr => h1 r (by simp [hr]))
      (List.nodup_cons.mp (by simpa using hnd)).2 ?_]
    · simp
    · intro r hr p hp
      rcases List.mem_append.mp hp with hp | hp
      · exact hdis r (by simp [hr]) p hp
      · have : p = entryOf x := by simpa using hp
        subst this
        intro he
        exact (List.nodup_cons.mp (by simpa using hnd)).1
          (he ▸ List.mem_map_of_mem (fun r => (entryOf r).1) hr)

theorem read_prev_of_rows (results : List EtaResult)
    (prev : List (String × PrevEta)) (now : String)
    (h1 : ∀ r ∈ results, pyStripS r.konsimento ≠ "")
    (hnd : (results.map (fun r => (entryOf r).1)).Nodup) :
    read_previous_map (DATA_HEADERS :: (to_rows_and_changes results prev now).1)
      = results.map entryOf := by
  rw [to_rows_and_changes, to_rows_go_rows, read_previous_map_headers,
    foldl_prevStep_entries results [] now prev h1 hnd (by simp)]
  simp

theorem oldEtaOf_read_prev (results : List EtaResult)
    (prev : List (String × PrevEta)) (now : String)
    (h1 : ∀ r ∈ results, pyStripS r.konsimento ≠ "")
    (hnd : (results.map (fun r => (entryOf r).1)).Nodup)
    {r : EtaResult} (hr : r ∈ results) :
    oldEtaOf (read_previous_map (DATA_HEADERS :: (to_rows_and_changes results prev now).1))
      (pyStripS r.konsimento) = newEtaOf r := by
  rw [read_prev_of_rows results prev now h1 hnd, oldEtaOf]
  have hl := lookup_map_entry results hnd r hr
  rw [show (entryOf r).1 = pyStripS r.konsimento from rfl] at hl
  rw [hl]
  show pyStripS (newEtaOf r) = newEtaOf r
  rw [newEtaOf, pyStripS_idem]

theorem processOne_second (now : String) (prev2 : List (String × PrevEta))
    (r : EtaResult) (hold : oldEtaOf prev2 (pyStripS r.konsimento) = newEtaOf r) :
    (processOne now prev2 r).2.1 = false ∧
      (processOne now prev2 r).1
        = [pyStripS r.konsimento, newEtaOf r, pyStripS r.kaynak,
           pyStripS (r.etd.getD ""), now, ""] := by
  rw [processOne]
  simp only [hold]
  simp

theorem processOne_row_of_not_changed (now : String) (prev : List (String × PrevEta))
    (r : EtaResult) (hflag : (processOne now prev r).2.1 = false) :
    (processOne now prev r).1
      = [pyStripS r.konsimento, newEtaOf r, pyStripS r.kaynak,
         pyStripS (r.etd.getD ""), now, ""] := by
  rw [processOne] at hflag ⊢
  simp only at hflag
  simp [hflag]

theorem to_rows_go_second (now : String) (prev2 : List (String × PrevEta)) :
    ∀ (i : Nat) (rs : List EtaResult),
      (∀ r ∈ rs, oldEtaOf prev2 (pyStripS r.konsimento) = newEtaOf r) →
      (to_rows_go now prev2 i rs).2.1 = [] ∧
        (to_rows_go now prev2 i rs).1
          = rs.map (fun r =>
              [pyStripS r.konsimento, newEtaOf r, pyStripS r.kaynak,
               pyStripS (r.etd.getD ""), now, ""]) := by
  intro i rs
  induction rs generalizing i with
  | nil => intro _; exact ⟨rfl, rfl⟩
  | cons r rs ih =>
    intro h
    obtain ⟨hflag, hrow⟩ := processOne_second now prev2 r (h r (by simp))
    obtain ⟨ih1, ih2⟩ := ih (i + 1) (fun x hx => h x (by simp [hx]))
    constructor
    · rw [to_rows_go]
      simp [hflag, ih1]
    · rw [to_rows_go]
      simp [hrow, ih2]

/-! ## Helper lemmas: canonicalization and the text normalizer -/

theorem canon_date_str_digits (s : String) :
    canon_date_str s = String.mk (s.data.filter pyIsDigit) := by
  by_cases h0 : s = ""
  · subst h0; rfl
  · have hst : (pyStrip s.data).filter pyIsDigit = s.data.filter pyIsDigit :=
      filter_pyStrip (fun c hc => isPySpace_not_digit hc) s.data
    simp only [canon_date_str, h0, if_false]
    by_cases hb : (pyStrip s.data).map pyLowerChar = "bilinmiyor".data
    · rw [if_pos hb]
      have h2 : ((pyStrip s.data).map pyLowerChar).filter pyIsDigit = [] := by
        rw [hb]; rfl
      rw [filter_map_comm] at h2
      have h3 : (pyStrip s.data).filter (fun c => pyIsDigit (pyLowerChar c)) = [] :=
        List.map_eq_nil_iff.mp h2
      have h4 : (pyStrip s.data).filter pyIsDigit = [] := by
        rw [← List.filter_congr (fun a _ => pyIsDigit_pyLowerChar a)]
        exact h3
      rw [hst] at h4
      rw [h4]
    · rw [if_neg hb, hst]

theorem isLowerAlnum_ne_space {c : Char} (h : isLowerAlnum c = true) : c ≠ ' ' := by
  intro he
  subst he
  cases h

theorem subNonAlnum_chars :
    ∀ (b : Bool) (l : List Char), ∀ c ∈ subNonAlnum b l, isLowerAlnum c = true ∨ c = ' ' := by
  intro b l
  induction l generalizing b with
  | nil => intro c hc; cases hc
  | cons a l ih =>
    intro c hc
    rw [subNonAlnum] at hc
    by_cases ha : isLowerAlnum a = true
    · rw [if_pos ha] at hc
      rcases List.mem_cons.mp hc with h | h
      · subst h; exact Or.inl ha
      · exact ih false c h
    · rw [if_neg ha] at hc
      cases b with
      | true => exact ih true c (by simpa using hc)
      | false =>
        rcases List.mem_cons.mp (by simpa using hc) with h | h
        · subst h; exact Or.inr rfl
        · exact ih true c h

theorem subNonAlnum_true_head :
    ∀ l : List Char, (subNonAlnum true l).head? ≠ some ' ' := by
  intro l
  induction l with
  | nil => simp [subNonAlnum]
  | cons a l ih =>
    rw [subNonAlnum]
    by_cases ha : isLowerAlnum a = true
    · rw [if_pos ha]
      intro h
      exact isLowerAlnum_ne_space ha (by simpa using h)
    · rw [if_neg ha]
      simpa using ih

theorem subNonAlnum_chain :
    ∀ (b : Bool) (l : List Char),
      (subNonAlnum b l).Chain' (fun x y => ¬(x = ' ' ∧ y = ' ')) := by
  intro b l
  induction l generalizing b with
  | nil => cases b <;> exact List.chain'_nil
  | cons a l ih =>
    rw [subNonAlnum]
    by_cases ha : isLowerAlnum a = true
    · rw [if_pos ha]
      apply List.chain'_cons'.mpr
      refine ⟨?_, ih false⟩
      intro y _
      intro hcontra
      exact isLowerAlnum_ne_space ha hcontra.1
    · rw [if_neg ha]
      cases b with
      | true => simpa using ih true
      | false =>
        simp only [Bool.false_eq_true, if_false]
        apply List.chain'_cons'.mpr
        refine ⟨?_, ih true⟩
        intro y hy
        intro hcontra
        exact subNonAlnum_true_head l (by rw [hy, hcontra.2])

theorem mem_pyStrip {c : Char} {l : List Char} (h : c ∈ pyStrip l) : c ∈ l := by
  rw [pyStrip, List.mem_reverse] at h
  have h2 := (List.dropWhile_suffix isPySpace).sublist.subset h
  rw [List.mem_reverse] at h2
  exact (List.dropWhile_suffix isPySpace).sublist.subset h2

theorem chain'_dropWhile {R : Char → Char → Prop} {p : Char → Bool} {l : List Char}
    (h : l.Chain' R) : (l.dropWhile p).Chain' R := by
  obtain ⟨t, ht⟩ := List.dropWhile_suffix (l := l) p
  rw [← ht] at h
  exact (List.chain'_append.mp h).2.1

theorem chain'_reverse_sp {l : List Char}
    (h : l.Chain' (fun x y => ¬(x = ' ' ∧ y = ' '))) :
    l.reverse.Chain' (fun x y => ¬(x = ' ' ∧ y = ' ')) := by
  apply List.chain'_reverse.mpr
  apply h.imp
  intro a b hab hcontra
  exact hab ⟨hcontra.2, hcontra.1⟩

theorem chain'_pyStrip {l : List Char}
    (h : l.Chain' (fun x y => ¬(x = ' ' ∧ y = ' '))) :
    (pyStrip l).Chain' (fun x y => ¬(x = ' ' ∧ y = ' ')) := by
  rw [pyStrip]
  exact chain'_reverse_sp (chain'_dropWhile (chain'_reverse_sp (chain'_dropWhile h)))

theorem pyStrip_head_not_space {l : List Char} {x : Char} {xs : List Char}
    (h : pyStrip l = x :: xs) : isPySpace x = false := by
  rw [pyStrip] at h
  have hb : (l.dropWhile isPySpace).reverse.dropWhile isPySpace ≠ [] := by
    intro hnil
    rw [hnil] at h
    cases h
  have hlx : (l.dropWhile isPySpace).head? = some x := by
    have h1 : ((l.dropWhile isPySpace).reverse.dropWhile isPySpace).reverse.head?
        = some x := by rw [h]; rfl
    rw [List.head?_reverse, getLast?_dropWhile hb, getLast?_reverse'] at h1
    exact h1
  cases hl : l.dropWhile isPySpace with
  | nil => rw [hl] at hlx; cases hlx
  | cons y ys =>
    rw [hl] at hlx
    cases hlx
    exact dropWhile_head_false hl

theorem pyStrip_reverse_head_not_space {l : List Char} {x : Char} {xs : List Char}
    (h : (pyStrip l).reverse = x :: xs) : isPySpace x = false := by
  rw [pyStrip, List.reverse_reverse] at h
  exact dropWhile_head_false h

/-! ## Helper lemmas: assorted -/

theorem getD_map_lists {f : EtaResult → List String} {l : List EtaResult} {i : Nat}
    (hi : i < l.length) : (l.map f).getD i [] = f (l.getD i default) := by
  rw [List.getD_eq_getElem (l.map f) [] (by simpa using hi),
    List.getD_eq_getElem l default hi]
  simp

theorem processOne_changed_iff (now : String) (prev : List (String × PrevEta))
    (r : EtaResult) :
    (processOne now prev r).2.1 = true ↔
      (canon_date_str (newEtaOf r) ≠ "" ∧
       canon_date_str (newEtaOf r)
         ≠ canon_date_str (oldEtaOf prev (pyStripS r.konsimento))) := by
  rw [processOne]
  simp

theorem processOne_note (now : String) (prev : List (String × PrevEta))
    (r : EtaResult) :
    (processOne now prev r).1.getD 5 ""
      = (if (processOne now prev r).2.1 = true
         then if oldEtaOf prev (pyStripS r.konsimento) ≠ ""
              then notePrefix ++ oldEtaOf prev (pyStripS r.konsimento)
                     ++ " → " ++ newEtaOf r
              else notePrefix ++ yokMarker ++ " → " ++ newEtaOf r
         else "") := rfl

theorem mem_allEventsSpec {ev : TrackingEvent} :
    ∀ cs : List Container,
      ev ∈ allEventsSpec cs ↔ ∃ c ∈ cs, ev ∈ c.events.getD [] := by
  intro cs
  induction cs with
  | nil => simp [allEventsSpec]
  | cons c cs ih =>
    rw [allEventsSpec, List.mem_append, ih]
    constructor
    · rintro (h | ⟨x, hx, hev⟩)
      · exact ⟨c, by simp, h⟩
      · exact ⟨x, by simp [hx], hev⟩
    · rintro ⟨x, hx, hev⟩
      rcases List.mem_cons.mp hx with hx | hx
      · subst hx; exact Or.inl hev
      · exact Or.inr ⟨x, hx, hev⟩

/-! ## Claim theorems -/

/-- Claim C1: for every aggregated container list and summary object of one
bill, the resolver picks the ETA by the ordered fallback chain with the
first matching tier winning — tier 1: first POD-ETA alias event, label
"POD ETA"; tier 2: non-empty summary final-POD-ETA field, label
"Final POD ETA" (even when a container has its own `podEtaDate`, witnessed
by the second conjunct); tier 3: first container's non-empty `podEtaDate`,
label "Container POD ETA"; tier 4: first import-to-consignee alias event,
label "Import to consignee"; else ETA and label stay the Unknown sentinel
and a diagnostic is recorded. -/
theorem spec_C1 :
    (∀ (cs : List Container) (g : GeneralTrackingInfo),
        resolveEta cs g = etaOrderedFallback cs g) ∧
    resolveEta [⟨some [], some "2025-10-01"⟩] ⟨some "2025-09-01"⟩
      = (some "2025-09-01", "Final POD ETA", []) :=
  ⟨resolveEta_eq_orderedFallback, by decide⟩

/-- Claim C3: the resolved ETD is the date of the last "export loaded on
vessel" event in encounter order — not the maximum by calendar date (second
and third conjuncts: with dates encountered in order 2025-08-01, 2025-08-03
the result is 2025-08-03; in order 2025-08-03, 2025-08-01 it is 2025-08-01,
the later encounter and not the calendar maximum) — and when no such event
exists the ETD stays the Unknown sentinel with a diagnostic recorded. -/
theorem spec_C3 :
    (∀ cs : List Container,
        resolveEtd cs = match etdLastExport cs with
          | some d => (d, [])
          | none => (some bilinmiyor, [etdMissMsg])) ∧
    (resolveEtd [⟨some [⟨some "Export loaded on vessel", some "2025-08-01"⟩], none⟩,
                 ⟨some [⟨some "Export loaded on vessel", some "2025-08-03"⟩], none⟩]).1
      = some "2025-08-03" ∧
    (resolveEtd [⟨some [⟨some "Export loaded on vessel", some "2025-08-03"⟩], none⟩,
                 ⟨some [⟨some "Export loaded on vessel", some "2025-08-01"⟩], none⟩]).1
      = some "2025-08-01" :=
  ⟨resolveEtd_eq_lastExport, by decide, by decide⟩

/-- Claim C4: the date canonicalization keeps exactly the digit characters of
its input for every string (first conjunct); in particular the sentinel in
any letter case, both as the spec's "Unknown" and as the code's
"Bilinmiyor", canonicalizes to the empty string, "14.08.2025" to "14082025"
and the empty string to itself. -/
theorem spec_C4 :
    (∀ s : String, canon_date_str s = String.mk (s.data.filter pyIsDigit)) ∧
    canon_date_str "Unknown" = "" ∧ canon_date_str "UNKNOWN" = "" ∧
    canon_date_str "unknown" = "" ∧ canon_date_str "Bilinmiyor" = "" ∧
    canon_date_str "BiLiNmIyOr" = "" ∧
    canon_date_str "14.08.2025" = "14082025" ∧ canon_date_str "" = "" :=
  ⟨canon_date_str_digits, by decide, by decide, by decide, by decide, by decide,
   by decide, by decide⟩

/-- Claim C9: the text normalizer maps the empty string to the empty string
and is a total function; the stricter event-description variant yields only
lowercase alphanumerics and single separating spaces with no leading or
trailing space (every maximal run of non-alphanumerics collapsed); the
concrete conjuncts witness decomposing accented characters to base form,
dropping the combining marks and lowercasing. -/
theorem spec_C9 :
    normalize "" = "" ∧ norm_desc (some "") = "" ∧ norm_desc none = "" ∧
    (∀ s : String, collapsedForm (norm_desc (some s)).data) ∧
    norm_desc (some "Éxport  Loaded—on  VESSEL!!") = "export loaded on vessel" ∧
    normalize "Éçé" = "ece" := by
  refine ⟨rfl, rfl, rfl, ?_, by decide, by decide⟩
  intro s
  show collapsedForm (pyStrip (subNonAlnum false (normalize s).data))
  refine ⟨?_, ?_, ?_, ?_⟩
  · intro c hc
    exact subNonAlnum_chars false _ c (mem_pyStrip hc)
  · exact chain'_pyStrip (subNonAlnum_chain false _)
  · intro hcontra
    cases hh : pyStrip (subNonAlnum false (normalize s).data) with
    | nil => rw [hh] at hcontra; cases hcontra
    | cons x xs =>
      rw [hh] at hcontra
      have hx : x = ' ' := by simpa using hcontra
      have := pyStrip_head_not_space hh
      rw [hx] at this
      cases this
  · intro hcontra
    cases hh : (pyStrip (subNonAlnum false (normalize s).data)).reverse with
    | nil => rw [hh] at hcontra; cases hcontra
    | cons x xs =>
      rw [hh] at hcontra
      have hx : x = ' ' := by simpa using hcontra
      have := pyStrip_reverse_head_not_space hh
      rw [hx] at this
      cases this

/-- Claim C2: a row is flagged as changed, with row numbers offset by the
two header rows, exactly when the canonicalized new ETA is non-empty and
differs from the canonicalized previously stored ETA for that bill number;
the note then shows the old value — or the "(yok)" none-marker when the old
value is empty — followed by the new value; otherwise the note cell stays
empty and the row is not flagged. -/
theorem spec_C2 (results : List EtaResult) (prev : List (String × PrevEta))
    (now : String) (i : Nat) (hi : i < results.length) :
    ((i + 2) ∈ (to_rows_and_changes results prev now).2.1 ↔
      (canon_date_str (newEtaOf (results.getD i default)) ≠ "" ∧
       canon_date_str (newEtaOf (results.getD i default))
         ≠ canon_date_str
             (oldEtaOf prev (pyStripS (results.getD i default).konsimento)))) ∧
    ((to_rows_and_changes results prev now).1.getD i []).getD 5 ""
      = (if (canon_date_str (newEtaOf (results.getD i default)) ≠ "" ∧
             canon_date_str (newEtaOf (results.getD i default))
               ≠ canon_date_str
                   (oldEtaOf prev (pyStripS (results.getD i default).konsimento)))
         then if oldEtaOf prev (pyStripS (results.getD i default).konsimento) ≠ ""
              then notePrefix
                     ++ oldEtaOf prev (pyStripS (results.getD i default).konsimento)
                     ++ " → " ++ newEtaOf (results.getD i default)
              else notePrefix ++ yokMarker ++ " → " ++ newEtaOf (results.getD i default)
         else "") := by
  constructor
  · rw [to_rows_and_changes, to_rows_go_mem now prev results 2 (i + 2)]
    constructor
    · rintro ⟨j, hj, hij, hflag⟩
      have hji : j = i := by omega
      subst hji
      exact (processOne_changed_iff now prev _).mp hflag
    · intro hcond
      exact ⟨i, hi, by omega, (processOne_changed_iff now prev _).mpr hcond⟩
  · rw [to_rows_and_changes, to_rows_go_rows, getD_map_lists hi, processOne_note]
    simp only [processOne_changed_iff]

/-- Witness for claim C2 at a concrete input: one bill "A" whose ETA moved
from 14.08.2025 to 15.08.2025 — the row is flagged and the note records the
change. -/
theorem spec_C2_witness :
    ((0 + 2) ∈ (to_rows_and_changes
        [⟨"A", some "15.08.2025", "POD ETA", some "01.08.2025", []⟩]
        [("A", ⟨"14.08.2025", ""⟩)] "T").2.1 ↔
      (canon_date_str (newEtaOf (([⟨"A", some "15.08.2025", "POD ETA",
          some "01.08.2025", []⟩] : List EtaResult).getD 0 default)) ≠ "" ∧
       canon_date_str (newEtaOf (([⟨"A", some "15.08.2025", "POD ETA",
          some "01.08.2025", []⟩] : List EtaResult).getD 0 default))
         ≠ canon_date_str
             (oldEtaOf [("A", ⟨"14.08.2025", ""⟩)]
               (pyStripS (([⟨"A", some "15.08.2025", "POD ETA",
                  some "01.08.2025", []⟩] : List EtaResult).getD 0 default).konsimento)))) ∧
    ((to_rows_and_changes
        [⟨"A", some "15.08.2025", "POD ETA", some "01.08.2025", []⟩]
        [("A", ⟨"14.08.2025", ""⟩)] "T").1.getD 0 []).getD 5 ""
      = (if (canon_date_str (newEtaOf (([⟨"A", some "15.08.2025", "POD ETA",
             some "01.08.2025", []⟩] : List EtaResult).getD 0 default)) ≠ "" ∧
             canon_date_str (newEtaOf (([⟨"A", some "15.08.2025", "POD ETA",
                some "01.08.2025", []⟩] : List EtaResult).getD 0 default))
               ≠ canon_date_str
                   (oldEtaOf [("A", ⟨"14.08.2025", ""⟩)]
                     (pyStripS (([⟨"A", some "15.08.2025", "POD ETA",
                        some "01.08.2025", []⟩] : List EtaResult).getD 0
                          default).konsimento)))
         then if oldEtaOf [("A", ⟨"14.08.2025", ""⟩)]
                  (pyStripS (([⟨"A", some "15.08.2025", "POD ETA",
                     some "01.08.2025", []⟩] : List EtaResult).getD 0
                       default).konsimento) ≠ ""
              then notePrefix
                     ++ oldEtaOf [("A", ⟨"14.08.2025", ""⟩)]
                         (pyStripS (([⟨"A", some "15.08.2025", "POD ETA",
                            some "01.08.2025", []⟩] : List EtaResult).getD 0
                              default).konsimento)
                     ++ " → " ++ newEtaOf (([⟨"A", some "15.08.2025", "POD ETA",
                          some "01.08.2025", []⟩] : List EtaResult).getD 0 default)
              else notePrefix ++ yokMarker ++ " → "
                     ++ newEtaOf (([⟨"A", some "15.08.2025", "POD ETA",
                          some "01.08.2025", []⟩] : List EtaResult).getD 0 default)
         else "") :=
  spec_C2 [⟨"A", some "15.08.2025", "POD ETA", some "01.08.2025", []⟩]
    [("A", ⟨"14.08.2025", ""⟩)] "T" 0 (by decide)

/-- Claim C5: whenever every bill's page responses determine its loop exit,
the batch runner returns exactly one result per input bill in input order
(result i carries bill number i), and a bill whose orchestration fails —
an exception before or inside the fetch, or an empty aggregate container
list — yields a result with the Unknown sentinel for ETA, source and ETD
and a non-empty diagnostic list, while the runner still returns normally. -/
theorem spec_C5 (bls : List String) (oracleOf : String → FetchOracle)
    (hdet : ∀ bl ∈ bls, (task (oracleOf bl) bl).isSome = true) :
    ∃ rs : List EtaResult,
      run_once oracleOf bls = some rs ∧ rs.length = bls.length ∧
      ∀ i, i < bls.length →
        (rs.getD i default).konsimento = bls.getD i "" ∧
        (bill_failed (oracleOf (bls.getD i "")) = true →
          (rs.getD i default).eta = some bilinmiyor ∧
          (rs.getD i default).kaynak = bilinmiyor ∧
          (rs.getD i default).etd = some bilinmiyor ∧
          (rs.getD i default).log ≠ []) := by
  obtain ⟨rs, h1, h2, h3⟩ := run_once_spec oracleOf bls hdet
  exact ⟨rs, h1, h2, fun i hi => task_spec (h3 i hi)⟩

/-- Witness for claim C5 at a concrete input: two bills, the second of which
fails during navigation. -/
theorem spec_C5_witness :
    ∃ rs : List EtaResult,
      run_once
        (fun bl => if bl = "A" then
            ⟨Except.ok (), Except.ok (),
             [Except.ok ⟨[⟨some [⟨some [⟨some "pod eta", some "2025-09-01"⟩],
                none⟩], none⟩], none⟩]⟩
          else ⟨Except.ok (), Except.error "boom", []⟩)
        ["A", "B"] = some rs ∧
      rs.length = (["A", "B"] : List String).length ∧
      ∀ i, i < (["A", "B"] : List String).length →
        (rs.getD i default).konsimento = (["A", "B"] : List String).getD i "" ∧
        (bill_failed
            ((fun bl => if bl = "A" then
                (⟨Except.ok (), Except.ok (),
                 [Except.ok ⟨[⟨some [⟨some [⟨some "pod eta", some "2025-09-01"⟩],
                    none⟩], none⟩], none⟩]⟩ : FetchOracle)
              else ⟨Except.ok (), Except.error "boom", []⟩)
              ((["A", "B"] : List String).getD i "")) = true →
          (rs.getD i default).eta = some bilinmiyor ∧
          (rs.getD i default).kaynak = bilinmiyor ∧
          (rs.getD i default).etd = some bilinmiyor ∧
          (rs.getD i default).log ≠ []) :=
  spec_C5 ["A", "B"]
    (fun bl => if bl = "A" then
        ⟨Except.ok (), Except.ok (),
         [Except.ok ⟨[⟨some [⟨some [⟨some "pod eta", some "2025-09-01"⟩],
            none⟩], none⟩], none⟩]⟩
      else ⟨Except.ok (), Except.error "boom", []⟩)
    (by intro bl hbl
        rcases List.mem_cons.mp hbl with h | h
        · subst h; rfl
        · have : bl = "B" := by simpa using h
          subst this; rfl)

/-- Claim C7: when pagination completes normally but the aggregate container
list is empty, the per-bill fetch is treated as a failure: the empty-result
diagnostic and the raised error's text are recorded and ETA, source and ETD
all carry the Unknown sentinel, exactly as for a fetch failure, and
`bill_failed` classifies the run as failed. -/
theorem spec_C7 (bl : String) (o : FetchOracle) (out : PagOut)
    (hnp : o.newPage = Except.ok ()) (hnav : o.nav = Except.ok ())
    (hpag : paginate o.resps 1 [] [] [] = some (Except.ok out))
    (hempty : out.containers = []) :
    get_eta_etd bl o
      = some (Except.ok ⟨bl, some bilinmiyor, bilinmiyor, some bilinmiyor,
          out.logs ++ [noContainersLog, hataMsg noContainersErr]⟩) ∧
    bill_failed o = true := by
  constructor
  · rw [get_eta_etd, hnp, hnav, hpag]
    simp [hempty]
  · rw [bill_failed, hnp, hnav, hpag]
    simp [hempty]

/-- Witness for claim C7 at a concrete input: page 1 returns no bill data,
so pagination ends with an empty aggregate. -/
theorem spec_C7_witness :
    get_eta_etd "X" ⟨Except.ok (), Except.ok (), [Except.ok ⟨[], none⟩]⟩
      = some (Except.ok ⟨"X", some bilinmiyor, bilinmiyor, some bilinmiyor,
          (⟨[], [], [1], [pg1Msg]⟩ : PagOut).logs
            ++ [noContainersLog, hataMsg noContainersErr]⟩) ∧
    bill_failed ⟨Except.ok (), Except.ok (), [Except.ok ⟨[], none⟩]⟩ = true :=
  spec_C7 "X" ⟨Except.ok (), Except.ok (), [Except.ok ⟨[], none⟩]⟩
    ⟨[], [], [1], [pg1Msg]⟩ rfl rfl rfl rfl

/-- Claim C6 is refuted as stated: with one bill whose ETA moved from
14.08.2025 to 15.08.2025, rerunning reconciliation with the previous map
rebuilt from the first run's written rows flags nothing — but the output
rows differ from the first run's (the note column is cleared), so the runs
do not yield identical rows; and rerunning with the same previous map
flags row 2 again, so the second run is not flag-free either. -/
theorem spec_C6_cex :
    (to_rows_and_changes [⟨"A", some "15.08.2025", "POD ETA", some "01.08.2025", []⟩]
        (read_previous_map (DATA_HEADERS ::
          (to_rows_and_changes
            [⟨"A", some "15.08.2025", "POD ETA", some "01.08.2025", []⟩]
            [("A", ⟨"14.08.2025", ""⟩)] "T").1)) "T").1
      ≠ (to_rows_and_changes
          [⟨"A", some "15.08.2025", "POD ETA", some "01.08.2025", []⟩]
          [("A", ⟨"14.08.2025", ""⟩)] "T").1 ∧
    (to_rows_and_changes [⟨"A", some "15.08.2025", "POD ETA", some "01.08.2025", []⟩]
        (read_previous_map (DATA_HEADERS ::
          (to_rows_and_changes
            [⟨"A", some "15.08.2025", "POD ETA", some "01.08.2025", []⟩]
            [("A", ⟨"14.08.2025", ""⟩)] "T").1)) "T").2.1 = [] ∧
    (to_rows_and_changes [⟨"A", some "15.08.2025", "POD ETA", some "01.08.2025", []⟩]
        [("A", ⟨"14.08.2025", ""⟩)] "T").2.1 = [2] :=
  ⟨by decide, by decide, by decide⟩

/-- Claim C6 (amended): when every result's trimmed bill number is non-empty
and the trimmed bill numbers are pairwise distinct, rerunning reconciliation
on the same results and timestamp with the previous map rebuilt from the
first run's written rows flags no rows; and if the first run flagged no rows
either, the two runs' output rows are identical. -/
theorem spec_C6 (results : List EtaResult) (prev : List (String × PrevEta))
    (now : String)
    (h1 : ∀ r ∈ results, pyStripS r.konsimento ≠ "")
    (hnd : (results.map (fun r => pyStripS r.konsimento)).Nodup) :
    (to_rows_and_changes results
        (read_previous_map
          (DATA_HEADERS :: (to_rows_and_changes results prev now).1)) now).2.1
      = [] ∧
    ((to_rows_and_changes results prev now).2.1 = [] →
      (to_rows_and_changes results
          (read_previous_map
            (DATA_HEADERS :: (to_rows_and_changes results prev now).1)) now).1
        = (to_rows_and_changes results prev now).1) := by
  have hnd' : (results.map (fun r => (entryOf r).1)).Nodup := hnd
  have hold : ∀ r ∈ results,
      oldEtaOf
        (read_previous_map
          (DATA_HEADERS :: (to_rows_and_changes results prev now).1))
        (pyStripS r.konsimento) = newEtaOf r :=
    fun r hr => oldEtaOf_read_prev results prev now h1 hnd' hr
  obtain ⟨hch, hrows⟩ := to_rows_go_second now
    (read_previous_map (DATA_HEADERS :: (to_rows_and_changes results prev now).1))
    2 results hold
  refine ⟨hch, ?_⟩
  intro hO1
  have hall := (to_rows_go_changed_nil now prev 2 results).mp hO1
  have hO1rows : (to_rows_and_changes results prev now).1
      = results.map (fun r =>
          [pyStripS r.konsimento, newEtaOf r, pyStripS r.kaynak,
           pyStripS (r.etd.getD ""), now, ""]) := by
    rw [to_rows_and_changes, to_rows_go_rows]
    exact List.map_congr_left
      (fun r hr => processOne_row_of_not_changed now prev r (hall r hr))
  exact hrows.trans hO1rows.symm

/-- Witness for claim C6 at a concrete input: one bill whose stored ETA
already matches the fresh one; neither run flags anything and the rows
coincide. -/
theorem spec_C6_witness :
    (to_rows_and_changes [⟨"A", some "14.08.2025", "POD ETA", some "x", []⟩]
        (read_previous_map
          (DATA_HEADERS :: (to_rows_and_changes
            [⟨"A", some "14.08.2025", "POD ETA", some "x", []⟩]
            [("A", ⟨"14.08.2025", ""⟩)] "T").1)) "T").2.1
      = [] ∧
    ((to_rows_and_changes [⟨"A", some "14.08.2025", "POD ETA", some "x", []⟩]
        [("A", ⟨"14.08.2025", ""⟩)] "T").2.1 = [] →
      (to_rows_and_changes [⟨"A", some "14.08.2025", "POD ETA", some "x", []⟩]
          (read_previous_map
            (DATA_HEADERS :: (to_rows_and_changes
              [⟨"A", some "14.08.2025", "POD ETA", some "x", []⟩]
              [("A", ⟨"14.08.2025", ""⟩)] "T").1)) "T").1
        = (to_rows_and_changes [⟨"A", some "14.08.2025", "POD ETA", some "x", []⟩]
            [("A", ⟨"14.08.2025", ""⟩)] "T").1) :=
  spec_C6 [⟨"A", some "14.08.2025", "POD ETA", some "x", []⟩]
    [("A", ⟨"14.08.2025", ""⟩)] "T" (by decide) (by decide)

/-- Claim C8 is refuted as stated: with page 1 carrying one bill, one
container and a present next-page indicator equal to 0, the loop terminates
at page 1 (only page number 1 is requested and page 2 is never consumed),
although the claim's stop condition — bill data empty, or indicator absent
or equal to the current page number — is false at page 1: the code also
stops on a falsy (zero) indicator. -/
theorem spec_C8_cex :
    paginate ([(⟨[⟨some [⟨none, none⟩], none⟩], some 0⟩ : PageData),
               (⟨[], none⟩ : PageData)].map Except.ok) 1 [] [] []
      = some (Except.ok ⟨[⟨none, none⟩], [⟨some [⟨none, none⟩], none⟩], [1], []⟩) ∧
    stopsAtClaim 1 ⟨[⟨some [⟨none, none⟩], none⟩], some 0⟩ = false :=
  ⟨rfl, rfl⟩

/-- Claim C8 (amended): for every finite sequence of successful page
responses, the pagination loop equals the spec recursion `paginateSpec`:
it visits pages in order, appends each visited page's containers to the
aggregate in page order, and terminates at the first page whose bill data
is empty (recording the diagnostic only when that happens on page 1) or
whose next-page indicator is absent, zero, or equal to the current page
number; moreover the requested page numbers are consecutive starting at
1. -/
theorem spec_C8 :
    (∀ pages : List PageData,
        paginate (pages.map Except.ok) 1 [] [] []
          = (paginateSpec 1 pages).map Except.ok) ∧
    (∀ (pages : List PageData) (out : PagOut),
        paginateSpec 1 pages = some out →
        out.requested
          = (List.range out.requested.length).map (fun j => 1 + Int.ofNat j)) := by
  constructor
  · intro pages
    rw [paginate_eq_spec pages 1 [] [] []]
    cases paginateSpec 1 pages with
    | none => rfl
    | some out => simp
  · exact fun pages => paginateSpec_requested pages 1

/-- Witness for claim C8 at a concrete input: a single page with empty bill
data stops at page 1 and the requested page numbers are exactly [1]. -/
theorem spec_C8_witness :
    (⟨[], [], [1], [pg1Msg]⟩ : PagOut).requested
      = (List.range (⟨[], [], [1], [pg1Msg]⟩ : PagOut).requested.length).map
          (fun j => 1 + Int.ofNat j) :=
  spec_C8.2 [⟨[], none⟩] ⟨[], [], [1], [pg1Msg]⟩ rfl

/-- Claim C10 is refuted as stated: a matching POD-ETA event whose date
string happens to equal the sentinel yields ETA = "Bilinmiyor" with
provenance label "POD ETA", so the ETA field equals the sentinel while the
label does not. -/
theorem spec_C10_cex :
    ¬(((resolveEta [⟨some [⟨some "POD ETA", some "Bilinmiyor"⟩], none⟩] ⟨none⟩).1
        = some bilinmiyor) ↔
      ((resolveEta [⟨some [⟨some "POD ETA", some "Bilinmiyor"⟩], none⟩] ⟨none⟩).2.1
        = bilinmiyor)) := by decide

/-- Claim C10 (amended): provided no event date, container `podEtaDate` or
summary final-POD-ETA field equals the sentinel string, the resolver's ETA
equals the Unknown sentinel exactly when the provenance label does: the two
are set together, so no result pairs a real label with a sentinel ETA or a
resolved ETA with the sentinel label. -/
theorem spec_C10 (cs : List Container) (g : GeneralTrackingInfo)
    (hev : ∀ c ∈ cs, (∀ ev ∈ c.events.getD [], ev.date ≠ some bilinmiyor) ∧
      c.podEtaDate ≠ some bilinmiyor)
    (hg : g.finalPodEtaDate ≠ some bilinmiyor) :
    ((resolveEta cs g).1 = some bilinmiyor ↔ (resolveEta cs g).2.1 = bilinmiyor) := by
  cases h1 : (eventDatesIn POD_ETA_ALIASES cs).head? with
  | some d =>
    have hval : resolveEta cs g = (d, "POD ETA", []) := by
      rw [resolveEta, h1]
    have hd : d ≠ some bilinmiyor := by
      have hmem : d ∈ eventDatesIn POD_ETA_ALIASES cs :=
        List.mem_of_mem_head? (by rw [h1]; rfl)
      rw [eventDatesIn_eq] at hmem
      obtain ⟨ev, hev', hdate⟩ := List.mem_map.mp hmem
      obtain ⟨c, hc, hevc⟩ := (mem_allEventsSpec _).mp (List.mem_filter.mp hev').1
      rw [← hdate]
      exact (hev c hc).1 ev hevc
    rw [hval]
    constructor
    · intro h; exact absurd h hd
    · intro h
      exact absurd (show ("POD ETA" : String) = bilinmiyor from h) (by decide)
  | none =>
    by_cases h2 : truthy g.finalPodEtaDate = true
    · have hval : resolveEta cs g = (g.finalPodEtaDate, "Final POD ETA", []) := by
        rw [resolveEta, h1]
        simp [h2]
      rw [hval]
      constructor
      · intro h; exact absurd h hg
      · intro h
        exact absurd (show ("Final POD ETA" : String) = bilinmiyor from h) (by decide)
    · cases h3 : (container_etas cs).head? with
      | some d =>
        have hval : resolveEta cs g = (d, "Container POD ETA", []) := by
          rw [resolveEta, h1]
          simp [eq_false_of_ne_true h2, h3]
        have hd : d ≠ some bilinmiyor := by
          have hmem : d ∈ container_etas cs :=
            List.mem_of_mem_head? (by rw [h3]; rfl)
          rw [container_etas_eq] at hmem
          obtain ⟨c, hc', hdate⟩ := List.mem_map.mp hmem
          rw [← hdate]
          exact (hev c (List.mem_filter.mp hc').1).2
        rw [hval]
        constructor
        · intro h; exact absurd h hd
        · intro h
          exact absurd (show ("Container POD ETA" : String) = bilinmiyor from h) (by decide)
      | none =>
        cases h4 : (eventDatesIn IMPORT_TO_CONSIGNEE_ALIASES cs).head? with
        | some d =>
          have hval : resolveEta cs g = (d, "Import to consignee", []) := by
            rw [resolveEta, h1]
            simp [eq_false_of_ne_true h2, h3, h4]
          have hd : d ≠ some bilinmiyor := by
            have hmem : d ∈ eventDatesIn IMPORT_TO_CONSIGNEE_ALIASES cs :=
              List.mem_of_mem_head? (by rw [h4]; rfl)
            rw [eventDatesIn_eq] at hmem
            obtain ⟨ev, hev', hdate⟩ := List.mem_map.mp hmem
            obtain ⟨c, hc, hevc⟩ := (mem_allEventsSpec _).mp (List.mem_filter.mp hev').1
            rw [← hdate]
            exact (hev c hc).1 ev hevc
          rw [hval]
          constructor
          · intro h; exact absurd h hd
          · intro h
            exact absurd (show ("Import to consignee" : String) = bilinmiyor from h) (by decide)
        | none =>
          have hval : resolveEta cs g = (some bilinmiyor, bilinmiyor, [etaMissMsg]) := by
            rw [resolveEta, h1]
            simp [eq_false_of_ne_true h2, h3, h4]
          rw [hval]
          simp

/-- Witness for claim C10 at a concrete input: one POD-ETA alias event with
an ordinary date — neither the ETA nor the label is the sentinel. -/
theorem spec_C10_witness :
    ((resolveEta [⟨some [⟨some "pod eta", some "2025-09-01"⟩], none⟩] ⟨none⟩).1
        = some bilinmiyor ↔
      (resolveEta [⟨some [⟨some "pod eta", some "2025-09-01"⟩], none⟩] ⟨none⟩).2.1
        = bilinmiyor) :=
  spec_C10 [⟨some [⟨some "pod eta", some "2025-09-01"⟩], none⟩] ⟨none⟩
    (by decide) (by decide)

end Msc
